import Mathlib

/-!
Verification development for the audiobook mastering tool (src/mastering.py,
class AudiobookProcessor).  The Python class is shallowly embedded: each
external probe / encoder invocation is represented by its observable outcome
(a value, a parse failure, or a raised error), and the pure control flow of
the analysis, remediation and reporting code is translated into executable
Lean functions.  Theorems below settle the behavioural claims about the
compliance rule engine, the channel policy, the remediation driver and the
batch aggregator.
-/

namespace Mastering

/-- Channel layout as returned by get_audio_channel_format: "mono" or "stereo". -/
inductive ChannelFormat where
  | mono
  | stereo
deriving DecidableEq, Repr

/-- Rendering of a ChannelFormat as the Python string value. -/
def ChannelFormat.str : ChannelFormat → String
  | .mono => "mono"
  | .stereo => "stereo"

/-- Observable outcome of the probe calls inside get_audio_channel_format:
the primary ffprobe call either succeeds with a parsed channel count, or it
raises and the eyed3 fallback yields a mode string, or the fallback finds no
stream info, or every method fails. -/
inductive ChannelProbeOutcome where
  | ffprobeOk (channels : Int)
  | eyed3Mode (mode : String)
  | eyed3NoInfo
  | allFail
deriving DecidableEq, Repr

/-- Translation of AudiobookProcessor.get_audio_channel_format: more than one
channel is stereo; the eyed3 fallback reports stereo exactly on the mode
string "Stereo"; every failure path degrades to mono. -/
def get_audio_channel_format : ChannelProbeOutcome → ChannelFormat
  | .ffprobeOk channels => if channels > 1 then .stereo else .mono
  | .eyed3Mode mode => if mode = "Stereo" then .stereo else .mono
  | .eyed3NoInfo => .mono
  | .allFail => .mono

/-- Observable outcomes of the three ffprobe attribute queries issued by
analyze_audio_file, plus the channel probe.  For the duration query the
subprocess call and the float parse both live inside the function's single
try block, so any failure is a raised error (Except.error with the exception
text).  For the bitrate and sample-rate queries the subprocess call may
raise (Except.error), while a failure of the int parse alone is caught
locally and represented by Except.ok none. -/
structure ProbeData where
  durationProbe : Except String Rat
  bitrateProbe : Except String (Option Nat)
  sampleRateProbe : Except String (Option Nat)
  channelOutcome : ChannelProbeOutcome

/-- An input file: its basename (the directory part plays no role in any of
the analyzed logic) together with the outcomes of the external probes on it. -/
structure FileSpec where
  filename : String
  probe : ProbeData

/-- The audio_requirements dictionary set up in AudiobookProcessor.__init__. -/
structure Requirements where
  min_rms : Int
  max_rms : Int
  max_peak : Int
  max_noise_floor : Int
  max_room_tone : Nat
  min_bitrate : Nat
  sample_rate : Nat
  max_duration : Nat

/-- The concrete requirement values from __init__. -/
def audio_requirements : Requirements :=
  { min_rms := -23, max_rms := -18, max_peak := -3, max_noise_floor := -60,
    max_room_tone := 5, min_bitrate := 192, sample_rate := 44100, max_duration := 120 }

/-- Index of the last occurrence of a character in a list, if any
(helper for splitext). -/
def lastIdxOf (c : Char) (cs : List Char) : Option Nat :=
  match cs.reverse.findIdx? (fun d => d = c) with
  | none => none
  | some j => some (cs.length - 1 - j)

/-- Python os.path.splitext on a basename: split the name at its last dot,
unless every character before that dot is itself a dot (so ".hidden" has no
extension). -/
def splitext (name : String) : String × String :=
  match lastIdxOf '.' name.data with
  | none => (name, "")
  | some i =>
      if (name.data.take i).all (fun c => c = '.') then (name, "")
      else (⟨name.data.take i⟩, ⟨name.data.drop i⟩)

/-- The chapter_indicators keyword list from analyze_audio_file. -/
def chapter_indicators : List String :=
  ["chapter", "ch", "section", "part", "prologue", "epilogue", "introduction",
   "foreword", "afterword", "appendix", "credits", "acknowledgments", "title", "dedication"]

/-- Lowercasing as in the Python str.lower calls of the source, character by
character (semantically the same as the library toLower, but stated on the
character list so that the kernel can evaluate it). -/
def lowerStr (s : String) : String := ⟨s.data.map Char.toLower⟩

/-- Uppercasing as in the Python str.upper calls of the source. -/
def upperStr (s : String) : String := ⟨s.data.map Char.toUpper⟩

/-- Executable infix test on character lists: the needle occurs contiguously
in the haystack. -/
def isInfixChars (needle : List Char) : List Char → Bool
  | [] => needle.isPrefixOf []
  | c :: rest => needle.isPrefixOf (c :: rest) || isInfixChars needle rest

/-- Substring containment, modelling the Python membership test of one string
in another. -/
def containsSub (haystack needle : String) : Bool :=
  isInfixChars needle.data haystack.data

/-- Test from analyze_audio_file: some chapter indicator occurs in the
lowercased stem. -/
def has_chapter_indicator (stem : String) : Bool :=
  chapter_indicators.any (fun indicator => containsSub (lowerStr stem) indicator)

/-- Test from analyze_audio_file: the stem contains a (decimal) digit. -/
def hasDigitChar (stem : String) : Bool :=
  stem.data.any Char.isDigit

/-- Characters allowed by the regex character class used for the filename
check (ASCII letters, digits, underscore, hyphen, space). -/
def allowedFilenameChar (c : Char) : Bool :=
  c.isAlpha || c.isDigit || c == '_' || c == '-' || c == ' '

/-- The anchored regex match on the stem.  A pattern anchored with a dollar
sign in Python also accepts exactly one trailing newline; that corner is
modelled faithfully. -/
def filename_regex_match (stem : String) : Bool :=
  let core := fun cs : List Char => !cs.isEmpty && cs.all allowedFilenameChar
  core stem.data ||
    (match stem.data.getLast? with
     | some c => c == '\n' && core stem.data.dropLast
     | none => false)

/-- Rendering of a rational with two decimal places, modelling the Python
format spec .2f (Python rounds half to even; no claim in this development
depends on the rendered digits, only on the fixed text around them). -/
def fmt2 (q : Rat) : String :=
  let sign := if q < 0 then "-" else ""
  let cents : Int := round (|q| * 100)
  let whole := cents / 100
  let frac := (cents % 100).toNat
  sign ++ toString whole ++ "." ++ (if frac < 10 then "0" else "") ++ toString frac

/-- Issue string for a stem failing the filename character check. -/
def special_char_issue : String :=
  "Filename contains special characters. Use only standard US alphabetical/numeric characters."

/-- Issue string for a stem with neither a chapter indicator nor a digit. -/
def chapter_info_issue : String :=
  "Filename does not appear to include chapter or section information (e.g., \x27Chapter 1\x27, \x27Prologue\x27)"

/-- Issue string for an over-long file. -/
def duration_issue (duration_minutes : Rat) : String :=
  "File duration (" ++ fmt2 duration_minutes ++
    " minutes) exceeds maximum allowed length (120 minutes). Split longer sections into separate files and include a secondary header for continuity."

/-- Issue string for an insufficient bitrate. -/
def bitrate_issue (bitrate : Nat) : String :=
  "Bitrate is " ++ toString bitrate ++ "kbps, must be at least " ++
    toString audio_requirements.min_bitrate ++ "kbps CBR"

/-- Issue string for a wrong sample rate. -/
def sample_rate_issue (sample_rate : Nat) : String :=
  "Sample rate is " ++ toString sample_rate ++ "Hz, must be " ++
    toString audio_requirements.sample_rate ++ "Hz"

/-- Issue string for an uncompressed (WAV) source container. -/
def wav_issue : String := "WAV format needs conversion to MP3"

/-- The unconditional normalization flag appended by the engine. -/
def normalization_issue : String := "Audio levels need to be checked and normalized"

/-- Issue string appended by the catch-all except branch of
analyze_audio_file, carrying the exception text. -/
def error_issue (e : String) : String := "Error analyzing file: " ++ e

/-- Channel conversion issue appended by the driver loop in process_files. -/
def channel_issue (current target : ChannelFormat) : String :=
  "Channel format: " ++ current.str ++ ", needs conversion to " ++ target.str

/-- Bitrate computation in analyze_audio_file: the parsed bits-per-second
integer floor-divided by 1000, a parse failure defaulting to 0. -/
def parsed_bitrate : Option Nat → Nat
  | some bps => bps / 1000
  | none => 0

/-- The results dictionary built by analyze_audio_file: the issue list in
detection order, the compliance verdict, and the optional probed attributes
(absent exactly when the code never assigned the corresponding key). -/
structure AnalysisResult where
  filename : String
  issues : List String
  compliant : Bool
  duration_minutes : Option Rat := none
  bitrate : Option Nat := none
  sample_rate : Option Nat := none
  channels : Option ChannelFormat := none
  file_format : Option String := none
deriving DecidableEq, Repr

/-- Translation of AudiobookProcessor.analyze_audio_file.  The two filename
checks run before the try block; inside the try block the duration, bitrate
and sample-rate probes run in order, any raised probe error jumps to the
except branch which appends a single analysis-error issue; a bitrate or
sample-rate value that merely fails to parse degrades to 0; the channel
probe never raises; WAV detection and the unconditional normalization flag
close the block. -/
def analyze_audio_file (f : FileSpec) : AnalysisResult :=
  let filename := f.filename
  let filename_without_ext := (splitext filename).1
  let st1 : List String × Bool :=
    if !filename_regex_match filename_without_ext then ([special_char_issue], false)
    else ([], true)
  let st2 : List String × Bool :=
    if !has_chapter_indicator filename_without_ext && !hasDigitChar filename_without_ext then
      (st1.1 ++ [chapter_info_issue], false)
    else st1
  match f.probe.durationProbe with
  | .error e =>
      { filename := filename, issues := st2.1 ++ [error_issue e], compliant := false }
  | .ok duration_seconds =>
    let duration_minutes := duration_seconds / 60
    let st3 : List String × Bool :=
      if duration_minutes > (audio_requirements.max_duration : Rat) then
        (st2.1 ++ [duration_issue duration_minutes], false)
      else st2
    match f.probe.bitrateProbe with
    | .error e =>
        { filename := filename, issues := st3.1 ++ [error_issue e], compliant := false,
          duration_minutes := some duration_minutes }
    | .ok bitrateParsed =>
      let bitrate := parsed_bitrate bitrateParsed
      let st4 : List String × Bool :=
        if bitrate < audio_requirements.min_bitrate then
          (st3.1 ++ [bitrate_issue bitrate], false)
        else st3
      match f.probe.sampleRateProbe with
      | .error e =>
          { filename := filename, issues := st4.1 ++ [error_issue e], compliant := false,
            duration_minutes := some duration_minutes, bitrate := some bitrate }
      | .ok sampleRateParsed =>
        let sample_rate := sampleRateParsed.getD 0
        let st5 : List String × Bool :=
          if sample_rate ≠ audio_requirements.sample_rate then
            (st4.1 ++ [sample_rate_issue sample_rate], false)
          else st4
        let channel_format := get_audio_channel_format f.probe.channelOutcome
        let is_wav := ".wav".data.isSuffixOf (lowerStr filename).data
        let st6 : List String × Bool :=
          if is_wav then (st5.1 ++ [wav_issue], false)
          else st5
        { filename := filename
          issues := st6.1 ++ [normalization_issue]
          compliant := false
          duration_minutes := some duration_minutes
          bitrate := some bitrate
          sample_rate := some sample_rate
          channels := some channel_format
          file_format := if is_wav then some "wav" else none }

/-- Run-scoped mutable state of the processor that the analyzed claims
concern: the channel policy and the report dictionary (an association list
in Python dict insertion order). -/
structure RunState where
  target_channel_format : Option ChannelFormat
  reports : List (String × AnalysisResult)

/-- State at the start of a run: no policy, no reports. -/
def initialState : RunState := { target_channel_format := none, reports := [] }

/-- Python dict insertion: overwrite in place if the key exists, keeping the
original position, else append. -/
def insertReport (d : List (String × AnalysisResult)) (k : String) (v : AnalysisResult) :
    List (String × AnalysisResult) :=
  if d.any (fun p => p.1 == k) then d.map (fun p => if p.1 == k then (k, v) else p)
  else d ++ [(k, v)]

/-- Body of the analysis loop in process_files: analyze the file, then (the
policy being always established there) append the channel-conversion issue
when the freshly probed layout differs from the target. -/
def analyze_and_flag_channel (target : Option ChannelFormat) (f : FileSpec) : AnalysisResult :=
  let results := analyze_audio_file f
  match target with
  | none => results
  | some t =>
      let current_format := get_audio_channel_format f.probe.channelOutcome
      if current_format ≠ t then
        { results with
            issues := results.issues ++ [channel_issue current_format t]
            compliant := false }
      else results

/-- Translation of determine_target_channel_format: probe the first file;
on an empty file list return none and leave the stored policy unchanged. -/
def determine_target_channel_format (files : List FileSpec) : Option ChannelFormat :=
  match files with
  | [] => none
  | first_file :: _ => some (get_audio_channel_format first_file.probe.channelOutcome)

/-- Translation of process_files: on a nonempty file list, establish the
channel policy from the first file, then analyze every file in order,
inserting each report into the report dictionary and appending the
channel-conversion issue on mismatch.  On an empty list the state is
returned untouched. -/
def process_files (files : List FileSpec) (st : RunState) : RunState :=
  match files with
  | [] => st
  | first_file :: _ =>
      let target := get_audio_channel_format first_file.probe.channelOutcome
      let reports := files.foldl
        (fun d f => insertReport d f.filename (analyze_and_flag_channel (some target) f))
        st.reports
      { target_channel_format := some target, reports := reports }

/-- Compliant-file count as computed identically by the summary in
process_files and by generate_report. -/
def compliant_count (reports : List (String × AnalysisResult)) : Nat :=
  (reports.filter (fun kv => kv.2.compliant)).length

/-- The seven histogram categories of the issue_categories dictionary. -/
inductive IssueCategory where
  | audio_level
  | peak_level
  | noise_floor
  | room_tone
  | format
  | duration
  | filename
deriving DecidableEq, Repr

/-- Per-issue branch of the summary loop in process_files: the if/elif
keyword chain deciding which (first matching, hence unique) histogram
category an issue string is counted under; none when no keyword matches. -/
def classify_issue (issue : String) : Option IssueCategory :=
  let l := lowerStr issue
  if ["rms", "volume", "levels", "normalize"].any (fun term => containsSub l term) then
    some .audio_level
  else if containsSub l "peak" then some .peak_level
  else if containsSub l "noise floor" then some .noise_floor
  else if containsSub l "room tone" || containsSub l "silence" then some .room_tone
  else if ["bitrate", "sample rate", "cbr", "channels", "wav"].any
      (fun term => containsSub l term) then
    some .format
  else if containsSub l "duration" || containsSub l "minutes" then some .duration
  else if containsSub l "filename" || containsSub l "chapter" then some .filename
  else none

/-- Counter update performed for one issue string: increment the counter of
its category, if it has one. -/
def tallyIssue (acc : IssueCategory → Nat) (issue : String) : IssueCategory → Nat :=
  match classify_issue issue with
  | some c => fun c' => if c' = c then acc c' + 1 else acc c'
  | none => acc

/-- The issue_categories histogram computed by the summary in process_files:
issues of non-compliant reports are classified and counted. -/
def issue_categories (reports : List (String × AnalysisResult)) : IssueCategory → Nat :=
  reports.foldl
    (fun acc kv => if kv.2.compliant then acc else kv.2.issues.foldl tallyIssue acc)
    (fun _ => 0)

/-- Ordered category keyword table exactly as the specification describes the
aggregator (audio-level terms before peak, before noise-floor, before
room-tone/silence, before format, before duration, before filename/chapter).
This definition follows the spec wording and is compared against the code
translation classify_issue in the refinement theorem for the aggregator. -/
def categoryKeywords : List (IssueCategory × List String) :=
  [(.audio_level, ["rms", "volume", "levels", "normalize"]),
   (.peak_level, ["peak"]),
   (.noise_floor, ["noise floor"]),
   (.room_tone, ["room tone", "silence"]),
   (.format, ["bitrate", "sample rate", "cbr", "channels", "wav"]),
   (.duration, ["duration", "minutes"]),
   (.filename, ["filename", "chapter"])]

/-- First-matching-category classification, the specification's description
of the aggregator. -/
def classifyFirstMatch (issue : String) : Option IssueCategory :=
  (categoryKeywords.find? (fun p => p.2.any (fun term => containsSub (lowerStr issue) term))).map
    (fun p => p.1)

/-- A remediation job: the input file plus the observable outcome of the
external encoder invocation on it (exit code, diagnostic text) and the probe
outcomes observed later on the encoded output file. -/
structure Job where
  spec : FileSpec
  encodeReturncode : Int
  encodeStderr : String
  outputProbe : ProbeData

/-- Output filename derivation in process_audio: same stem, extension forced
to .mp3 when the source is a WAV file. -/
def output_name (file_name : String) : String :=
  if lowerStr (splitext file_name).2 == ".wav" then (splitext file_name).1 ++ ".mp3"
  else file_name

/-- Translation of process_audio: build the fixes-applied list, run the
external encoder; a non-zero exit returns failure with the encoder's
diagnostic text and no output path; success returns the output filename.
The output directory, fixed for the whole run, is left implicit so paths
are represented by their basename. -/
def process_audio (target : Option ChannelFormat) (j : Job) : Bool × String × Option String :=
  let file_name := j.spec.filename
  let issues_fixed0 :=
    if lowerStr (splitext file_name).2 == ".wav" then ["Converted from WAV to MP3 format"]
    else []
  let output_path := output_name file_name
  let current_format := get_audio_channel_format j.spec.probe.channelOutcome
  let issues_fixed1 :=
    match target with
    | some t =>
        if current_format ≠ t then
          issues_fixed0 ++
            ["Converted from " ++ upperStr current_format.str ++ " to " ++ upperStr t.str]
        else issues_fixed0
    | none => issues_fixed0
  if j.encodeReturncode ≠ 0 then
    (false, "Error running ffmpeg: " ++ j.encodeStderr, none)
  else
    let issues_fixed := issues_fixed1 ++ ["Normalized audio levels to meet Audible requirements"]
    if !issues_fixed.isEmpty then
      (true, "Processed audio: " ++ String.intercalate "; " issues_fixed, some output_path)
    else
      (true, "Audio meets requirements, no processing needed", some output_path)

/-- The FileSpec a successfully encoded job contributes to the re-analysis
pass: the derived output filename plus the probe outcomes on the encoded
output. -/
def outputFile (j : Job) : FileSpec :=
  { filename := output_name j.spec.filename, probe := j.outputProbe }

/-- The processed_files list accumulated by the loop of process_all_files:
the outputs of the jobs whose process_audio invocation succeeded, in order. -/
def processed_files (target : Option ChannelFormat) (jobs : List Job) : List FileSpec :=
  (jobs.filter (fun j => (process_audio target j).1)).map outputFile

/-- Translation of process_all_files proper: run process_audio on every file
in order, collect the processed outputs; if any succeeded, reset the report
dictionary and re-run process_files on them (which re-establishes the
channel policy from the first processed file); with no successes the state
is left as after pass 1. -/
def process_all_files (jobs : List Job) (st : RunState) : RunState :=
  match jobs with
  | [] => st
  | _ :: _ =>
      let processed := processed_files st.target_channel_format jobs
      if processed.isEmpty then st
      else process_files processed { st with reports := [] }

/-- State after analysis pass 1 of a run, as produced by the process_files
call in main on the discovered files. -/
def pass1_state (jobs : List Job) : RunState :=
  process_files (jobs.map (fun j => j.spec)) initialState

/-- End-to-end driver as sequenced by main: analysis pass 1 over the
discovered files, then remediation and the re-analysis pass over the
successfully processed outputs. -/
def full_run (jobs : List Job) : RunState :=
  process_all_files jobs (pass1_state jobs)

/-- Issue prefix produced by the two filename checks of the engine. -/
def filename_issues (fn : String) : List String :=
  (if !filename_regex_match (splitext fn).1 then [special_char_issue] else []) ++
  (if !has_chapter_indicator (splitext fn).1 && !hasDigitChar (splitext fn).1 then
    [chapter_info_issue] else [])

/-- Issue chunk of the duration check, as a function of probed seconds. -/
def duration_check_issues (d : Rat) : List String :=
  if d / 60 > (audio_requirements.max_duration : Rat) then [duration_issue (d / 60)] else []

/-- Issue chunk of the bitrate check. -/
def bitrate_check_issues (b : Nat) : List String :=
  if b < audio_requirements.min_bitrate then [bitrate_issue b] else []

/-- Issue chunk of the sample-rate check. -/
def sample_rate_check_issues (sr : Nat) : List String :=
  if sr ≠ audio_requirements.sample_rate then [sample_rate_issue sr] else []

/-- Issue chunk of the container-format check. -/
def wav_check_issues (fn : String) : List String :=
  if ".wav".data.isSuffixOf (lowerStr fn).data then [wav_issue] else []

/-- Probe data where every external query succeeds, with a 10-minute duration,
256 kbps, 44100 Hz, stereo. -/
def okProbe : ProbeData :=
  { durationProbe := Except.ok 600, bitrateProbe := Except.ok (some 256000),
    sampleRateProbe := Except.ok (some 44100),
    channelOutcome := ChannelProbeOutcome.ffprobeOk 2 }

/-- File whose duration query raises inside the analysis try block. -/
def durationFailFile : FileSpec :=
  { filename := "02_Chapter_2.mp3",
    probe := { okProbe with durationProbe := Except.error "ffprobe failed" } }

/-- File whose bitrate query subprocess raises inside the analysis try block. -/
def bitrateFailFile : FileSpec :=
  { filename := "03_Chapter_3.mp3",
    probe := { okProbe with bitrateProbe := Except.error "ffprobe failed" } }

/-- Job whose input probes stereo, whose encode succeeds, but whose output
file can no longer be probed for channels (every probe method fails). -/
def policyFlipJob : Job :=
  { spec := { filename := "01_Chapter_1.mp3", probe := okProbe },
    encodeReturncode := 0, encodeStderr := "",
    outputProbe := { okProbe with channelOutcome := ChannelProbeOutcome.allFail } }

/-- Job whose encode succeeds and whose output probes exactly like its input
(stereo), the expected situation after a faithful encode. -/
def stableJob : Job :=
  { spec := { filename := "01_Chapter_1.mp3", probe := okProbe },
    encodeReturncode := 0, encodeStderr := "", outputProbe := okProbe }

/-- Job whose encoder invocation exits with code 1. -/
def encodeFailJob : Job :=
  { spec := { filename := "04_Chapter_4.mp3", probe := okProbe },
    encodeReturncode := 1, encodeStderr := "encoder exploded", outputProbe := okProbe }

/-- Job whose encoder invocation succeeds. -/
def encodeOkJob : Job :=
  { spec := { filename := "05_Chapter_5.mp3", probe := okProbe },
    encodeReturncode := 0, encodeStderr := "", outputProbe := okProbe }

/-- Example of a well-formed file name with probe data. -/
def wellNamedFile : FileSpec := { filename := "01_Chapter_1.mp3", probe := okProbe }



theorem analyze_eq_of_duration_error (fn : String) (e : String)
    (bp sp : Except String (Option Nat)) (co : ChannelProbeOutcome) :
    analyze_audio_file ⟨fn, ⟨Except.error e, bp, sp, co⟩⟩ =
      { filename := fn, issues := filename_issues fn ++ [error_issue e], compliant := false } := by
  simp only [analyze_audio_file, filename_issues]
  split_ifs <;> simp

theorem analyze_eq_of_bitrate_error (fn : String) (d : Rat) (e : String)
    (sp : Except String (Option Nat)) (co : ChannelProbeOutcome) :
    analyze_audio_file ⟨fn, ⟨Except.ok d, Except.error e, sp, co⟩⟩ =
      { filename := fn
        issues := filename_issues fn ++ duration_check_issues d ++ [error_issue e]
        compliant := false
        duration_minutes := some (d / 60) } := by
  simp only [analyze_audio_file, filename_issues, duration_check_issues]
  split_ifs <;> simp

theorem analyze_eq_of_sample_rate_error (fn : String) (d : Rat) (bq : Option Nat) (e : String)
    (co : ChannelProbeOutcome) :
    analyze_audio_file ⟨fn, ⟨Except.ok d, Except.ok bq, Except.error e, co⟩⟩ =
      { filename := fn
        issues := filename_issues fn ++ duration_check_issues d ++
          bitrate_check_issues (parsed_bitrate bq) ++ [error_issue e]
        compliant := false
        duration_minutes := some (d / 60)
        bitrate := some (parsed_bitrate bq) } := by
  simp only [analyze_audio_file, filename_issues, duration_check_issues, bitrate_check_issues]
  split_ifs <;> simp

theorem analyze_eq_ok (fn : String) (d : Rat) (bq sq : Option Nat) (co : ChannelProbeOutcome) :
    analyze_audio_file ⟨fn, ⟨Except.ok d, Except.ok bq, Except.ok sq, co⟩⟩ =
      { filename := fn
        issues := filename_issues fn ++ duration_check_issues d ++
          bitrate_check_issues (parsed_bitrate bq) ++
          sample_rate_check_issues (sq.getD 0) ++ wav_check_issues fn ++ [normalization_issue]
        compliant := false
        duration_minutes := some (d / 60)
        bitrate := some (parsed_bitrate bq)
        sample_rate := some (sq.getD 0)
        channels := some (get_audio_channel_format co)
        file_format := if ".wav".data.isSuffixOf (lowerStr fn).data then some "wav" else none } := by
  simp only [analyze_audio_file, filename_issues, duration_check_issues, bitrate_check_issues,
    sample_rate_check_issues, wav_check_issues]
  split_ifs <;> simp

theorem analyze_compliant_false (f : FileSpec) : (analyze_audio_file f).compliant = false := by
  obtain ⟨fn, ⟨dp, bp, sp', co⟩⟩ := f
  cases dp with
  | error e => rw [analyze_eq_of_duration_error]
  | ok d =>
    cases bp with
    | error e => rw [analyze_eq_of_bitrate_error]
    | ok bq =>
      cases sp' with
      | error e => rw [analyze_eq_of_sample_rate_error]
      | ok sq => rw [analyze_eq_ok]

theorem analyze_issues_ne_nil (f : FileSpec) : (analyze_audio_file f).issues ≠ [] := by
  obtain ⟨fn, ⟨dp, bp, sp', co⟩⟩ := f
  cases dp with
  | error e => rw [analyze_eq_of_duration_error]; simp
  | ok d =>
    cases bp with
    | error e => rw [analyze_eq_of_bitrate_error]; simp
    | ok bq =>
      cases sp' with
      | error e => rw [analyze_eq_of_sample_rate_error]; simp
      | ok sq => rw [analyze_eq_ok]; simp

theorem flag_channel_compliant_false (t : Option ChannelFormat) (f : FileSpec) :
    (analyze_and_flag_channel t f).compliant = false := by
  cases t with
  | none => exact analyze_compliant_false f
  | some c =>
    simp only [analyze_and_flag_channel]
    split
    · rfl
    · exact analyze_compliant_false f

theorem flag_channel_issues_ne_nil (t : Option ChannelFormat) (f : FileSpec) :
    (analyze_and_flag_channel t f).issues ≠ [] := by
  cases t with
  | none => exact analyze_issues_ne_nil f
  | some c =>
    simp only [analyze_and_flag_channel]
    split
    · simp
    · exact analyze_issues_ne_nil f

theorem mem_insertReport {d : List (String × AnalysisResult)} {k : String} {v : AnalysisResult}
    {x : String × AnalysisResult} (hx : x ∈ insertReport d k v) : x ∈ d ∨ x = (k, v) := by
  unfold insertReport at hx
  split at hx
  · obtain ⟨p, hp, he⟩ := List.mem_map.1 hx
    by_cases h : (p.1 == k) = true
    · simp only [if_pos h] at he; exact Or.inr he.symm
    · simp only [if_neg h] at he; exact Or.inl (he ▸ hp)
  · rcases List.mem_append.1 hx with h | h
    · exact Or.inl h
    · simp only [List.mem_singleton] at h; exact Or.inr h

theorem foldl_insert_forall (P : String × AnalysisResult → Prop) (g : FileSpec → AnalysisResult) :
    ∀ (files : List FileSpec) (d : List (String × AnalysisResult)),
      (∀ x ∈ d, P x) → (∀ f ∈ files, P (f.filename, g f)) →
      ∀ x ∈ files.foldl (fun d' f => insertReport d' f.filename (g f)) d, P x := by
  intro files
  induction files with
  | nil => intro d hd _ x hx; exact hd x hx
  | cons f fs ih =>
    intro d hd hg x hx
    simp only [List.foldl_cons] at hx
    refine ih _ ?_ ?_ x hx
    · intro y hy
      rcases mem_insertReport hy with h | h
      · exact hd y h
      · subst h; exact hg f (List.mem_cons_self f fs)
    · intro f' hf'
      exact hg f' (List.mem_cons_of_mem _ hf')

theorem process_files_reports_forall (P : String × AnalysisResult → Prop)
    (files : List FileSpec) (st : RunState)
    (hst : ∀ x ∈ st.reports, P x)
    (hP : ∀ (t : Option ChannelFormat) (f : FileSpec),
      P (f.filename, analyze_and_flag_channel t f)) :
    ∀ x ∈ (process_files files st).reports, P x := by
  cases files with
  | nil => exact hst
  | cons f fs =>
    simp only [process_files]
    exact foldl_insert_forall P _ (f :: fs) st.reports hst (fun f' _ => hP _ f')

theorem pass1_reports_forall (P : String × AnalysisResult → Prop) (jobs : List Job)
    (hP : ∀ (t : Option ChannelFormat) (f : FileSpec),
      P (f.filename, analyze_and_flag_channel t f)) :
    ∀ x ∈ (pass1_state jobs).reports, P x :=
  by
  refine process_files_reports_forall P _ _ ?_ hP
  intro x hx
  exact absurd hx (List.not_mem_nil x)

theorem process_all_files_reports_forall (P : String × AnalysisResult → Prop)
    (jobs : List Job) (st : RunState)
    (hst : ∀ x ∈ st.reports, P x)
    (hP : ∀ (t : Option ChannelFormat) (f : FileSpec),
      P (f.filename, analyze_and_flag_channel t f)) :
    ∀ x ∈ (process_all_files jobs st).reports, P x := by
  cases jobs with
  | nil => exact hst
  | cons j js =>
    intro x hx
    simp only [process_all_files] at hx
    split at hx
    · exact hst x hx
    · refine process_files_reports_forall P _ _ ?_ hP x hx
      intro y hy
      exact absurd hy (List.not_mem_nil y)

theorem full_run_reports_forall (P : String × AnalysisResult → Prop) (jobs : List Job)
    (hP : ∀ (t : Option ChannelFormat) (f : FileSpec),
      P (f.filename, analyze_and_flag_channel t f)) :
    ∀ x ∈ (full_run jobs).reports, P x :=
  process_all_files_reports_forall P jobs (pass1_state jobs) (pass1_reports_forall P jobs hP) hP

theorem string_ne_of_get_ne {s t : String} (i : Nat)
    (h : s.data[i]? ≠ t.data[i]?) : s ≠ t :=
  fun e => h (by rw [e])

theorem data_get_append_of_get {a s : String} {i : Nat} {c : Char}
    (h : a.data[i]? = some c) : (a ++ s).data[i]? = some c := by
  have hlt : i < a.data.length := by
    by_contra hge
    rw [List.getElem?_eq_none (Nat.le_of_not_lt hge)] at h
    cases h
  rw [String.data_append, List.getElem?_append_left hlt]
  exact h

theorem ne_of_get0 {s t : String} (c d : Char) (hs : s.data[0]? = some c)
    (ht : t.data[0]? = some d) (h : c ≠ d) : s ≠ t :=
  string_ne_of_get_ne 0 (by rw [hs, ht]; simp [h])

theorem bitrate_issue_get0 (b : Nat) : (bitrate_issue b).data[0]? = some 'B' := by
  unfold bitrate_issue
  exact data_get_append_of_get (data_get_append_of_get (data_get_append_of_get
    (data_get_append_of_get (by decide))))

theorem sample_rate_issue_get0 (sr : Nat) : (sample_rate_issue sr).data[0]? = some 'S' := by
  unfold sample_rate_issue
  exact data_get_append_of_get (data_get_append_of_get (data_get_append_of_get
    (data_get_append_of_get (by decide))))

theorem duration_issue_get0 (q : Rat) : (duration_issue q).data[0]? = some 'F' := by
  unfold duration_issue
  exact data_get_append_of_get (data_get_append_of_get (by decide))

theorem duration_issue_get4 (q : Rat) : (duration_issue q).data[4]? = some ' ' := by
  unfold duration_issue
  exact data_get_append_of_get (data_get_append_of_get (by decide))

theorem error_issue_get0 (e : String) : (error_issue e).data[0]? = some 'E' := by
  unfold error_issue
  exact data_get_append_of_get (by decide)

theorem mem_ite_singleton {α : Type} {c : Prop} [Decidable c] {x y : α} :
    (x ∈ if c then [y] else []) ↔ c ∧ x = y := by
  split <;> simp_all

theorem bitrate_issue_ne_special (b : Nat) : bitrate_issue b ≠ special_char_issue :=
  ne_of_get0 'B' 'F' (bitrate_issue_get0 b) (by decide) (by decide)

theorem bitrate_issue_ne_chapter (b : Nat) : bitrate_issue b ≠ chapter_info_issue :=
  ne_of_get0 'B' 'F' (bitrate_issue_get0 b) (by decide) (by decide)

theorem bitrate_issue_ne_duration (b : Nat) (q : Rat) : bitrate_issue b ≠ duration_issue q :=
  ne_of_get0 'B' 'F' (bitrate_issue_get0 b) (duration_issue_get0 q) (by decide)

theorem bitrate_issue_ne_sample_rate (b sr : Nat) : bitrate_issue b ≠ sample_rate_issue sr :=
  ne_of_get0 'B' 'S' (bitrate_issue_get0 b) (sample_rate_issue_get0 sr) (by decide)

theorem bitrate_issue_ne_wav (b : Nat) : bitrate_issue b ≠ wav_issue :=
  ne_of_get0 'B' 'W' (bitrate_issue_get0 b) (by decide) (by decide)

theorem bitrate_issue_ne_norm (b : Nat) : bitrate_issue b ≠ normalization_issue :=
  ne_of_get0 'B' 'A' (bitrate_issue_get0 b) (by decide) (by decide)

theorem special_ne_duration (q : Rat) : special_char_issue ≠ duration_issue q :=
  string_ne_of_get_ne 4 (by rw [duration_issue_get4]; decide)

theorem special_ne_bitrate (b : Nat) : special_char_issue ≠ bitrate_issue b :=
  ne_of_get0 'F' 'B' (by decide) (bitrate_issue_get0 b) (by decide)

theorem special_ne_sample_rate (sr : Nat) : special_char_issue ≠ sample_rate_issue sr :=
  ne_of_get0 'F' 'S' (by decide) (sample_rate_issue_get0 sr) (by decide)

theorem special_ne_error (e : String) : special_char_issue ≠ error_issue e :=
  ne_of_get0 'F' 'E' (by decide) (error_issue_get0 e) (by decide)

theorem chapter_ne_duration (q : Rat) : chapter_info_issue ≠ duration_issue q :=
  string_ne_of_get_ne 4 (by rw [duration_issue_get4]; decide)

theorem chapter_ne_bitrate (b : Nat) : chapter_info_issue ≠ bitrate_issue b :=
  ne_of_get0 'F' 'B' (by decide) (bitrate_issue_get0 b) (by decide)

theorem chapter_ne_sample_rate (sr : Nat) : chapter_info_issue ≠ sample_rate_issue sr :=
  ne_of_get0 'F' 'S' (by decide) (sample_rate_issue_get0 sr) (by decide)

theorem chapter_ne_error (e : String) : chapter_info_issue ≠ error_issue e :=
  ne_of_get0 'F' 'E' (by decide) (error_issue_get0 e) (by decide)

/-- C5: on the no-raise path the bitrate issue is present in the report iff
the probed bitrate (in kbps, parse failure normalized to 0) is below 192;
in particular 192 yields no issue, 191 and 0 yield one. -/
theorem c5_bitrate_threshold (fn : String) (d : Rat) (bq sq : Option Nat)
    (co : ChannelProbeOutcome) :
    (bitrate_issue (parsed_bitrate bq) ∈
        (analyze_audio_file ⟨fn, ⟨Except.ok d, Except.ok bq, Except.ok sq, co⟩⟩).issues
      ↔ parsed_bitrate bq < 192) ∧
    parsed_bitrate none = 0 := by
  refine ⟨?_, rfl⟩
  rw [analyze_eq_ok]
  simp only [filename_issues, duration_check_issues, bitrate_check_issues,
    sample_rate_check_issues, wav_check_issues, List.mem_append, mem_ite_singleton,
    List.mem_singleton]
  simp [audio_requirements, bitrate_issue_ne_special, bitrate_issue_ne_chapter,
    bitrate_issue_ne_duration, bitrate_issue_ne_sample_rate, bitrate_issue_ne_wav,
    bitrate_issue_ne_norm]

theorem special_ne_wav : special_char_issue ≠ wav_issue := by decide

theorem special_ne_norm : special_char_issue ≠ normalization_issue := by decide

theorem chapter_ne_wav : chapter_info_issue ≠ wav_issue := by decide

theorem chapter_ne_norm : chapter_info_issue ≠ normalization_issue := by decide

/-- C8: a file whose stem consists only of ASCII letters, digits,
underscore, hyphen and space and contains a digit or a chapter keyword
(case-insensitively) receives neither the special-character issue nor the
missing-chapter-information issue, whatever its probe outcomes. -/
theorem c8_wellformed_filename_no_issues (f : FileSpec)
    (hre : filename_regex_match (splitext f.filename).1 = true)
    (hck : has_chapter_indicator (splitext f.filename).1 = true
        ∨ hasDigitChar (splitext f.filename).1 = true) :
    special_char_issue ∉ (analyze_audio_file f).issues ∧
    chapter_info_issue ∉ (analyze_audio_file f).issues := by
  obtain ⟨fn, ⟨dp, bp, sp', co⟩⟩ := f
  have hfn : filename_issues fn = [] := by
    simp only [filename_issues, hre, Bool.not_true, Bool.false_eq_true, if_false,
      List.nil_append]
    rcases hck with h | h <;> simp [h]
  cases dp with
  | error e =>
    rw [analyze_eq_of_duration_error]
    simp [hfn, special_ne_error, chapter_ne_error]
  | ok d =>
    cases bp with
    | error e =>
      rw [analyze_eq_of_bitrate_error]
      simp [hfn, duration_check_issues, mem_ite_singleton, special_ne_duration,
        chapter_ne_duration, special_ne_error, chapter_ne_error]
    | ok bq =>
      cases sp' with
      | error e =>
        rw [analyze_eq_of_sample_rate_error]
        simp [hfn, duration_check_issues, bitrate_check_issues, mem_ite_singleton,
          special_ne_duration, chapter_ne_duration, special_ne_bitrate, chapter_ne_bitrate,
          special_ne_error, chapter_ne_error]
      | ok sq =>
        rw [analyze_eq_ok]
        simp [hfn, duration_check_issues, bitrate_check_issues, sample_rate_check_issues,
          wav_check_issues, mem_ite_singleton, special_ne_duration, chapter_ne_duration,
          special_ne_bitrate, chapter_ne_bitrate, special_ne_sample_rate,
          chapter_ne_sample_rate, special_ne_wav, chapter_ne_wav, special_ne_norm,
          chapter_ne_norm]

/-- C1 (amended): when no probe subprocess raises, a bitrate or sample-rate
parse failure degrades to the sentinel 0 (failing the corresponding check)
and a channel-probe failure degrades to mono, the later checks are still
evaluated and the unconditional normalization flag is still appended; the
file is marked non-compliant.  (As stated, C1 is false: a raised duration
probe aborts the remaining checks — see the counterexample.) -/
theorem c1_amended_probe_degradation (fn : String) (d : Rat) (bq sq : Option Nat)
    (co : ChannelProbeOutcome) :
    normalization_issue ∈
      (analyze_audio_file ⟨fn, ⟨Except.ok d, Except.ok bq, Except.ok sq, co⟩⟩).issues ∧
    (analyze_audio_file ⟨fn, ⟨Except.ok d, Except.ok none, Except.ok sq, co⟩⟩).bitrate
        = some 0 ∧
    bitrate_issue 0 ∈
      (analyze_audio_file ⟨fn, ⟨Except.ok d, Except.ok none, Except.ok sq, co⟩⟩).issues ∧
    (analyze_audio_file ⟨fn, ⟨Except.ok d, Except.ok bq, Except.ok none, co⟩⟩).sample_rate
        = some 0 ∧
    sample_rate_issue 0 ∈
      (analyze_audio_file ⟨fn, ⟨Except.ok d, Except.ok bq, Except.ok none, co⟩⟩).issues ∧
    (analyze_audio_file
        ⟨fn, ⟨Except.ok d, Except.ok bq, Except.ok sq, ChannelProbeOutcome.allFail⟩⟩).channels
        = some ChannelFormat.mono ∧
    (analyze_audio_file ⟨fn, ⟨Except.ok d, Except.ok bq, Except.ok sq, co⟩⟩).compliant
        = false := by
  refine ⟨?_, ?_, ?_, ?_, ?_, ?_, ?_⟩
  · rw [analyze_eq_ok]; simp
  · rw [analyze_eq_ok]
    rfl
  · rw [analyze_eq_ok]
    simp [bitrate_check_issues, parsed_bitrate, audio_requirements]
  · rw [analyze_eq_ok]
    rfl
  · rw [analyze_eq_ok]
    simp [sample_rate_check_issues, audio_requirements]
  · rw [analyze_eq_ok]
    rfl
  · rw [analyze_eq_ok]

/-- C3 (amended): whenever the probe sequence completes without raising, the
engine appends the "Audio levels need to be checked and normalized" issue
and marks the file non-compliant; every analyzed file, probe failures
included, is marked non-compliant.  (As stated, C3 is false on the
probe-abort path — see the counterexample.) -/
theorem c3_amended_normalization (fn : String) (d : Rat) (bq sq : Option Nat)
    (co : ChannelProbeOutcome) (f : FileSpec) :
    normalization_issue ∈
      (analyze_audio_file ⟨fn, ⟨Except.ok d, Except.ok bq, Except.ok sq, co⟩⟩).issues ∧
    (analyze_audio_file ⟨fn, ⟨Except.ok d, Except.ok bq, Except.ok sq, co⟩⟩).compliant = false ∧
    (analyze_audio_file f).compliant = false := by
  refine ⟨?_, ?_, analyze_compliant_false f⟩
  · rw [analyze_eq_ok]; simp
  · rw [analyze_eq_ok]

/-- C4: every report produced by an evaluation — in either analysis pass of a
full run, and equally for a single engine evaluation with the driver's
channel-issue append — satisfies compliant = issues.isEmpty (both sides are
in fact always false). -/
theorem c4_report_invariant (jobs : List Job) (t : Option ChannelFormat) (f : FileSpec) :
    ((full_run jobs).reports.all fun kv => kv.2.compliant == kv.2.issues.isEmpty) = true ∧
    ((analyze_and_flag_channel t f).compliant == (analyze_and_flag_channel t f).issues.isEmpty)
      = true := by
  constructor
  · rw [List.all_eq_true]
    intro kv hkv
    obtain ⟨h1, h2⟩ := full_run_reports_forall
      (fun kv => kv.2.compliant = false ∧ kv.2.issues ≠ []) jobs
      (fun t' f' => ⟨flag_channel_compliant_false t' f', flag_channel_issues_ne_nil t' f'⟩)
      kv hkv
    have h3 : kv.2.issues.isEmpty = false := by
      rw [← Bool.not_eq_true, List.isEmpty_iff]
      exact h2
    simp [h1, h3]
  · have h1 := flag_channel_compliant_false t f
    have h2 := flag_channel_issues_ne_nil t f
    have h3 : (analyze_and_flag_channel t f).issues.isEmpty = false := by
      rw [← Bool.not_eq_true, List.isEmpty_iff]
      exact h2
    simp [h1, h3]

/-- C9: in every analysis pass of a non-empty run, re-analysis included,
every evaluated file is marked non-compliant, and the compliant count used
by both the console summary and the written report is 0. -/
theorem c9_always_noncompliant (j : Job) (js : List Job) (g : FileSpec) (gs : List FileSpec) :
    ((full_run (j :: js)).reports.all fun kv => kv.2.compliant == false) = true ∧
    compliant_count (full_run (j :: js)).reports = 0 ∧
    compliant_count (process_files (g :: gs) initialState).reports = 0 := by
  have hall := full_run_reports_forall (fun kv => kv.2.compliant = false) (j :: js)
    (fun t f => flag_channel_compliant_false t f)
  have hall2 := process_files_reports_forall (fun kv => kv.2.compliant = false) (g :: gs)
    initialState (fun x hx => absurd hx (List.not_mem_nil x))
    (fun t f => flag_channel_compliant_false t f)
  refine ⟨?_, ?_, ?_⟩
  · rw [List.all_eq_true]
    intro kv hkv
    simp [hall kv hkv]
  · unfold compliant_count
    rw [List.length_eq_zero, List.filter_eq_nil_iff]
    intro kv hkv
    simp [hall kv hkv]
  · unfold compliant_count
    rw [List.length_eq_zero, List.filter_eq_nil_iff]
    intro kv hkv
    simp [hall2 kv hkv]

/-- C7: the aggregator's if/elif chain classifies an issue string exactly as
ordered first-match over the keyword table (audio-level before peak before
noise-floor before room-tone/silence before format before duration before
filename/chapter), and one issue string increments at most one histogram
category. -/
theorem c7_aggregator_first_match (s : String) (acc : IssueCategory → Nat) :
    classify_issue s = classifyFirstMatch s ∧
    (tallyIssue acc s = acc ∨
      ∃ c, classify_issue s = some c ∧
        tallyIssue acc s = fun c' => if c' = c then acc c' + 1 else acc c') := by
  constructor
  · unfold classify_issue classifyFirstMatch categoryKeywords
    by_cases h1 : (["rms", "volume", "levels", "normalize"].any
        (fun term => containsSub (lowerStr s) term)) = true
    · simp [h1, List.find?]
    · by_cases h2 : containsSub (lowerStr s) "peak" = true
      · simp [h1, h2, List.find?]
      · by_cases h3 : containsSub (lowerStr s) "noise floor" = true
        · simp [h1, h2, h3, List.find?]
        · by_cases h4 : (containsSub (lowerStr s) "room tone"
              || containsSub (lowerStr s) "silence") = true
          · simp [h1, h2, h3, h4, List.find?]
          · by_cases h5 : (["bitrate", "sample rate", "cbr", "channels", "wav"].any
                (fun term => containsSub (lowerStr s) term)) = true
            · simp [h1, h2, h3, h4, h5, List.find?]
            · by_cases h6 : (containsSub (lowerStr s) "duration"
                  || containsSub (lowerStr s) "minutes") = true
              · simp [h1, h2, h3, h4, h5, h6, List.find?]
              · by_cases h7 : (containsSub (lowerStr s) "filename"
                    || containsSub (lowerStr s) "chapter") = true
                · simp [h1, h2, h3, h4, h5, h6, h7, List.find?]
                · simp [h1, h2, h3, h4, h5, h6, h7, List.find?]
  · cases h : classify_issue s with
    | none => left; unfold tallyIssue; rw [h]
    | some c => right; exact ⟨c, rfl, by unfold tallyIssue; rw [h]⟩

/-- C10: the channel-conversion issue string matches none of the
aggregator's category keywords: it classifies to no category and its tally
update leaves every histogram counter unchanged. -/
theorem c10_channel_issue_invisible (current target : ChannelFormat)
    (acc : IssueCategory → Nat) :
    classify_issue (channel_issue current target) = none ∧
    tallyIssue acc (channel_issue current target) = acc := by
  have h : classify_issue (channel_issue current target) = none := by
    cases current <;> cases target <;> decide
  exact ⟨h, by unfold tallyIssue; rw [h]⟩

/-- C1 counterexample: on a file whose duration probe fails, the engine does
not append the normalization flag and never evaluates the bitrate and
sample-rate checks (their result keys stay absent), refuting the claim that
a single probe failure never aborts the evaluation of the remaining checks. -/
theorem c1_counterexample :
    normalization_issue ∉ (analyze_audio_file durationFailFile).issues ∧
    (analyze_audio_file durationFailFile).bitrate = none ∧
    (analyze_audio_file durationFailFile).sample_rate = none ∧
    (analyze_audio_file durationFailFile).compliant = false := by
  refine ⟨by decide, rfl, rfl, rfl⟩

theorem norm_ne_error (e : String) : normalization_issue ≠ error_issue e :=
  ne_of_get0 'A' 'E' (by decide) (error_issue_get0 e) (by decide)

/-- C3 counterexample: a file whose bitrate probe subprocess raises is marked
non-compliant via the analysis-error issue, but the levels-normalization
issue is not appended, refuting "for every input file, regardless of its
probed attributes". -/
theorem c3_counterexample :
    normalization_issue ∉ (analyze_audio_file bitrateFailFile).issues ∧
    (analyze_audio_file bitrateFailFile).compliant = false := by
  refine ⟨?_, analyze_compliant_false bitrateFailFile⟩
  show normalization_issue ∉
    (analyze_audio_file ⟨"03_Chapter_3.mp3", ⟨Except.ok 600, Except.error "ffprobe failed",
      Except.ok (some 44100), ChannelProbeOutcome.ffprobeOk 2⟩⟩).issues
  rw [analyze_eq_of_bitrate_error]
  have hfn : filename_issues "03_Chapter_3.mp3" = [] := by decide
  have hdur : duration_check_issues 600 = [] := by
    norm_num [duration_check_issues, audio_requirements]
  simp [hfn, hdur, norm_ne_error]

/-- C2 counterexample: a run whose single file probes stereo establishes the
stereo policy in pass 1, but when the remediated output cannot be probed the
re-analysis pass re-establishes the policy as mono — the value changes
during the run, refuting the claimed immutability across the re-analysis
pass. -/
theorem c2_counterexample :
    (pass1_state [policyFlipJob]).target_channel_format = some ChannelFormat.stereo ∧
    (full_run [policyFlipJob]).target_channel_format = some ChannelFormat.mono :=
  ⟨rfl, rfl⟩

/-- C2 (amended): within one analysis pass the channel policy is established
once from the pass's first file and evaluating later files never changes it;
the re-analysis pass however re-establishes the policy from the first
remediated output's probed layout, so the value is preserved across the
re-analysis exactly when that probe returns the pass-1 target (the expected
case after a faithful encode). -/
theorem c2_amended_channel_policy (j : Job) (js : List Job) (g : FileSpec) (gs : List FileSpec)
    (hproc : processed_files (pass1_state (j :: js)).target_channel_format (j :: js) = g :: gs)
    (hsame : some (get_audio_channel_format g.probe.channelOutcome)
        = (pass1_state (j :: js)).target_channel_format) :
    (∀ (f : FileSpec) (fs : List FileSpec) (st : RunState),
        (process_files (f :: fs) st).target_channel_format
          = some (get_audio_channel_format f.probe.channelOutcome)) ∧
    (full_run (j :: js)).target_channel_format
      = (pass1_state (j :: js)).target_channel_format := by
  constructor
  · intro f fs st
    rfl
  · show (process_all_files (j :: js) (pass1_state (j :: js))).target_channel_format = _
    simp only [process_all_files, hproc, List.isEmpty_cons, process_files]
    exact hsame

/-- C2 witness: concrete run (stereo input, faithful encode) where the
amended policy-invariance theorem applies and the policy is preserved. -/
theorem c2_amended_witness :
    (process_files [stableJob.spec] initialState).target_channel_format
        = some (get_audio_channel_format stableJob.spec.probe.channelOutcome) ∧
    (full_run [stableJob]).target_channel_format
      = (pass1_state [stableJob]).target_channel_format :=
  have h := c2_amended_channel_policy stableJob [] (outputFile stableJob) [] rfl rfl
  ⟨h.1 stableJob.spec [] initialState, h.2⟩

theorem process_audio_fst (t : Option ChannelFormat) (j : Job) :
    (process_audio t j).1 = (j.encodeReturncode == 0) := by
  simp only [process_audio]
  split
  · rename_i h
    simp [h]
  · rename_i h
    simp only [ne_eq, not_not] at h
    split <;> simp [h]

theorem processed_files_eq_filter (t : Option ChannelFormat) (jobs : List Job) :
    processed_files t jobs
      = (jobs.filter (fun j => j.encodeReturncode == 0)).map outputFile := by
  unfold processed_files
  congr 1
  apply List.filter_congr
  intro j _
  exact process_audio_fst t j

theorem insertReport_any_self (d : List (String × AnalysisResult)) (k : String)
    (v : AnalysisResult) : ((insertReport d k v).any (fun kv => kv.1 == k)) = true := by
  unfold insertReport
  split
  · rename_i h
    rw [List.any_eq_true] at h ⊢
    obtain ⟨p, hp, hpk⟩ := h
    exact ⟨(k, v), List.mem_map.2 ⟨p, hp, by simp [hpk]⟩, by simp⟩
  · rw [List.any_append]
    simp

theorem insertReport_any_mono (d : List (String × AnalysisResult)) (k : String)
    (v : AnalysisResult) (k' : String) (h : (d.any (fun kv => kv.1 == k')) = true) :
    ((insertReport d k v).any (fun kv => kv.1 == k')) = true := by
  unfold insertReport
  split
  · rename_i hk
    rw [List.any_eq_true] at h ⊢
    obtain ⟨p, hp, hpk⟩ := h
    refine ⟨if p.1 == k then (k, v) else p, List.mem_map.2 ⟨p, hp, rfl⟩, ?_⟩
    split
    · rename_i hpk2
      have e1 : p.1 = k' := by simpa using hpk
      have e2 : p.1 = k := by simpa using hpk2
      simp [e2.symm.trans e1]
    · exact hpk
  · rw [List.any_append]
    simp [h]

theorem foldl_insert_any_mono (g : FileSpec → AnalysisResult) (files : List FileSpec)
    (d : List (String × AnalysisResult)) (k' : String)
    (h : (d.any (fun kv => kv.1 == k')) = true) :
    ((files.foldl (fun d' f => insertReport d' f.filename (g f)) d).any
      (fun kv => kv.1 == k')) = true := by
  induction files generalizing d with
  | nil => exact h
  | cons a as ih =>
    simp only [List.foldl_cons]
    exact ih _ (insertReport_any_mono _ _ _ _ h)

theorem foldl_insert_key_mem (g : FileSpec → AnalysisResult) (files : List FileSpec)
    (d : List (String × AnalysisResult)) (f : FileSpec) (hf : f ∈ files) :
    ((files.foldl (fun d' f' => insertReport d' f'.filename (g f')) d).any
      (fun kv => kv.1 == f.filename)) = true := by
  induction files generalizing d with
  | nil => cases hf
  | cons a as ih =>
    simp only [List.foldl_cons]
    rcases List.mem_cons.1 hf with h | h
    · subst h
      exact foldl_insert_any_mono g as _ _ (insertReport_any_self d f.filename (g f))
    · exact ih _ h

theorem process_files_key_mem (files : List FileSpec) (st : RunState) (f : FileSpec)
    (hf : f ∈ files) :
    ((process_files files st).reports.any (fun kv => kv.1 == f.filename)) = true := by
  cases files with
  | nil => cases hf
  | cons a as =>
    simp only [process_files]
    exact foldl_insert_key_mem _ (a :: as) st.reports f hf

theorem process_files_reports_forall_mem (P : String × AnalysisResult → Prop)
    (files : List FileSpec) (st : RunState)
    (hst : ∀ x ∈ st.reports, P x)
    (hP : ∀ (t : Option ChannelFormat), ∀ f ∈ files,
      P (f.filename, analyze_and_flag_channel t f)) :
    ∀ x ∈ (process_files files st).reports, P x := by
  cases files with
  | nil => exact hst
  | cons f fs =>
    simp only [process_files]
    exact foldl_insert_forall P _ (f :: fs) st.reports hst (fun f' hf' => hP _ f' hf')

/-- C6 (amended): a file whose encoder exits non-zero yields a failure result
carrying the encoder's diagnostic text and is excluded from the
re-analysis pass; provided at least one file in the batch encodes
successfully, the final report is built solely from the successfully
encoded outputs (so the failed file contributes no entry), and every
successfully encoded file — before or after the failed one — still has an
entry (processing continued).  (As stated, C6 is false when every file
fails to encode — see the counterexample.) -/
theorem c6_amended_encode_failure (j : Job) (js : List Job) (jf : Job)
    (_hjf : jf ∈ j :: js) (hrc : jf.encodeReturncode ≠ 0)
    (g : FileSpec) (gs : List FileSpec)
    (hproc : processed_files (pass1_state (j :: js)).target_channel_format (j :: js)
      = g :: gs) :
    process_audio (pass1_state (j :: js)).target_channel_format jf
        = (false, "Error running ffmpeg: " ++ jf.encodeStderr, none) ∧
    (full_run (j :: js)).reports
        = (process_files (g :: gs) { pass1_state (j :: js) with reports := [] }).reports ∧
    (((j :: js).filter (fun a => a.encodeReturncode == 0)).all
        (fun a => (full_run (j :: js)).reports.any
          (fun kv => kv.1 == output_name a.spec.filename))) = true ∧
    ((full_run (j :: js)).reports.all
        (fun kv => ((j :: js).filter (fun a => a.encodeReturncode == 0)).any
          (fun a => output_name a.spec.filename == kv.1))) = true := by
  have hproc2 : ((j :: js).filter (fun a => a.encodeReturncode == 0)).map outputFile
      = g :: gs := by
    rw [← processed_files_eq_filter]
    exact hproc
  have hfull : (full_run (j :: js)).reports
      = (process_files (g :: gs) { pass1_state (j :: js) with reports := [] }).reports := by
    show (process_all_files (j :: js) (pass1_state (j :: js))).reports = _
    simp only [process_all_files, hproc, List.isEmpty_cons, Bool.false_eq_true, if_false]
  refine ⟨?_, hfull, ?_, ?_⟩
  · simp only [process_audio]
    rw [if_pos hrc]
  · rw [List.all_eq_true]
    intro a ha
    obtain ⟨haMem, haRc⟩ := List.mem_filter.1 ha
    rw [hfull]
    have hout : outputFile a ∈ g :: gs := by
      rw [← hproc2]
      exact List.mem_map.2 ⟨a, List.mem_filter.2 ⟨haMem, haRc⟩, rfl⟩
    exact process_files_key_mem (g :: gs) _ (outputFile a) hout
  · rw [List.all_eq_true]
    intro kv hkv
    rw [hfull] at hkv
    refine process_files_reports_forall_mem
      (fun kv => (((j :: js).filter (fun a => a.encodeReturncode == 0)).any
        (fun a => output_name a.spec.filename == kv.1)) = true)
      (g :: gs) _ ?_ ?_ kv hkv
    · intro y hy
      exact absurd hy (List.not_mem_nil y)
    · intro t f hf
      rw [← hproc2] at hf
      obtain ⟨a, haf, hae⟩ := List.mem_map.1 hf
      rw [List.any_eq_true]
      refine ⟨a, haf, ?_⟩
      rw [← hae]
      simp [outputFile]

/-- C6 counterexample: when the only file of a batch fails to encode, the
re-analysis pass is skipped and the final report still contains the failed
file's pass-1 entry, refuting the claimed unconditional exclusion from the
final report. -/
theorem c6_counterexample :
    encodeFailJob.encodeReturncode ≠ 0 ∧
    ((full_run [encodeFailJob]).reports.any
      (fun kv => kv.1 == encodeFailJob.spec.filename)) = true := by
  exact ⟨by decide, rfl⟩

/-- C6 witness: concrete two-file batch whose first file fails to encode and
whose second succeeds, instantiating the amended encode-failure theorem. -/
theorem c6_amended_witness :
    process_audio (pass1_state [encodeFailJob, encodeOkJob]).target_channel_format encodeFailJob
        = (false, "Error running ffmpeg: " ++ encodeFailJob.encodeStderr, none) ∧
    (full_run [encodeFailJob, encodeOkJob]).reports
        = (process_files [outputFile encodeOkJob]
            { pass1_state [encodeFailJob, encodeOkJob] with reports := [] }).reports ∧
    (([encodeFailJob, encodeOkJob].filter (fun a => a.encodeReturncode == 0)).all
        (fun a => (full_run [encodeFailJob, encodeOkJob]).reports.any
          (fun kv => kv.1 == output_name a.spec.filename))) = true ∧
    ((full_run [encodeFailJob, encodeOkJob]).reports.all
        (fun kv => ([encodeFailJob, encodeOkJob].filter
            (fun a => a.encodeReturncode == 0)).any
          (fun a => output_name a.spec.filename == kv.1))) = true :=
  c6_amended_encode_failure encodeFailJob [encodeOkJob] encodeFailJob
    (List.mem_cons_self _ _) (by decide) (outputFile encodeOkJob) [] rfl

/-- C8 witness: the well-formed name "01_Chapter_1.mp3" triggers no
filename-related issue. -/
theorem c8_witness :
    special_char_issue ∉ (analyze_audio_file wellNamedFile).issues ∧
    chapter_info_issue ∉ (analyze_audio_file wellNamedFile).issues :=
  c8_wellformed_filename_no_issues wellNamedFile (by decide) (Or.inl (by decide))

end Mastering
